import Mathlib

/-!
A shallow embedding of `geoapy.py`, a client library for an IP-geolocation
HTTP API, together with proofs about its behaviour.

External effects (filesystem credential file, the `shelve` cache store, the
HTTP transport) are modelled explicitly: the credential file is an
`Option String`, the cache store is an `Option CacheStore` (`none` = the
store file does not exist; `shelve.open` with flag `'c'` creates an empty
store, flag `'w'` fails when the file is absent), and the HTTP response the
provider would return is part of the environment.  Every operation returns
its result together with the updated store and a trace of the external
effects it performed.
-/

instance {ε α : Type} [DecidableEq ε] [DecidableEq α] : DecidableEq (Except ε α) :=
  fun a b =>
    match a, b with
    | .ok x, .ok y =>
      if h : x = y then .isTrue (by rw [h]) else .isFalse (by intro hh; cases hh; exact h rfl)
    | .error x, .error y =>
      if h : x = y then .isTrue (by rw [h]) else .isFalse (by intro hh; cases hh; exact h rfl)
    | .ok _, .error _ => .isFalse (by intro hh; cases hh)
    | .error _, .ok _ => .isFalse (by intro hh; cases hh)

namespace Geoapy

/-- Embeds `_FIELDS` of geoapy.py: the field catalog, in source order. -/
def _FIELDS : List String :=
  ["domain", "ip", "hostname", "continent_code", "continent_name",
   "country_code2", "country_code3", "country_name", "country_capital",
   "state_prov", "district", "city", "zipcode", "latitude", "longitude",
   "is_eu", "calling_code", "country_tld", "languages", "country_flag",
   "geoname_id", "isp", "connection_type", "organization", "asn",
   "currency", "time_zone"]

/-- Embeds `__URL` of geoapy.py. -/
def __URL : String := "https://api.ipgeolocation.io/ipgeo?"

/-- Embeds `__API_PARAM` of geoapy.py. -/
def __API_PARAM : String := "apiKey"

/-- The value of `Path(__file__).parent` stored by `Response.__init__` as the
`currentfolder` attribute; an opaque directory path, modelled as a constant. -/
def currentfolderPath : String := "/lib/geoapy"

/-- A `Response` instance's `__dict__`: attribute names mapped to (string)
values, in insertion order. -/
abbrev Rec := List (String × String)

/-- The shelve cache store contents: IP keys mapped to persisted
`Response.__dict__` mappings. -/
abbrev CacheStore := List (String × Rec)

/-- The error code carried by `RequestError`: the Python code is either the
integer HTTP status or the string literal used in the fallback branch. -/
inductive ErrCode
  | num (n : Nat)
  | str (s : String)
deriving DecidableEq

/-- The exceptions the library can raise.  The first four are the classes
defined in geoapy.py; the rest are the built-in Python exceptions its code
can raise (`TypeError` from indexing a string with a string, `KeyError` from
`del` on a missing key, `AttributeError` from `__getattribute__`, the dbm
open error from `shelve.open(..., 'w')` on a missing file, `ValueError`
from `int()`). -/
inductive GeoError
  | keyNotFound
  | incorrectIpFormat (iptype : String)
  | fieldDoesNotExist (field : String)
  | requestError (code : ErrCode) (text : String)
  | typeError
  | keyError
  | attributeError
  | dbOpenError
  | valueError
deriving DecidableEq

/-- External effects performed by the library, recorded as a trace. -/
inductive Eff
  | keyAccess
  | cacheOpen (flag : Char)
  | cacheRead (key : String)
  | cacheWrite (key : String)
  | cacheDel (key : String)
  | httpGet (url : String)
deriving DecidableEq

/-- Python `d.get(k)` / `k in d` lookup on an association list representing a
dict (keys unique, insertion order). -/
def dictGet {α : Type} : List (String × α) → String → Option α
  | [], _ => none
  | (k', v) :: t, k => if k' = k then some v else dictGet t k

/-- Python `d[k] = v` on a dict: overwrite in place, else append. -/
def dictSet {α : Type} : List (String × α) → String → α → List (String × α)
  | [], k, v => [(k, v)]
  | (k', v') :: t, k, v => if k' = k then (k, v) :: t else (k', v') :: dictSet t k v

/-- Python `del d[k]` on a dict whose keys are unique: drop the entry. -/
def dictDel {α : Type} : List (String × α) → String → List (String × α)
  | [], _ => []
  | (k', v') :: t, k => if k' = k then t else (k', v') :: dictDel t k

/-- Python `s in t` on strings: `needle` occurs contiguously in `hay`
(the empty needle always occurs). -/
def isSubstr : List Char → List Char → Bool
  | n, [] => n.isEmpty
  | n, c :: t => n.isPrefixOf (c :: t) || isSubstr n t

/-- Embeds `Response.__init__` applied to a dict payload (the `r.json()` path):
each catalog field is set to the payload value when the key is present,
else to the empty string, and then `currentfolder` is set. -/
def responseInitDict (attributes : List (String × String)) : Rec :=
  (_FIELDS.map (fun f => (f, (dictGet attributes f).getD ""))) ++
    [("currentfolder", currentfolderPath)]

/-- Embeds `Response.__init__` applied to a string (the `retreivefromcache` path,
which calls `cls(ip)` with the ip string as `attributes`): `field in
attributes` is then a substring test, and `attributes[field]` raises
`TypeError` (string indices must be integers).  So the first catalog field
occurring as a substring of the string raises `TypeError`; otherwise every
field is set to the empty string. -/
def responseInitStr (s : String) : Except GeoError Rec :=
  if _FIELDS.any (fun f => isSubstr f.data s.data) then .error .typeError
  else .ok ((_FIELDS.map (fun f => (f, ""))) ++ [("currentfolder", currentfolderPath)])

/-- Embeds `getkey`: returns the credential file contents, or raises `KeyNotFound`
when the file does not exist. -/
def getkey (keyfile : Option String) : Except GeoError String :=
  match keyfile with
  | some k => .ok k
  | none => .error .keyNotFound

/-- Embeds `registerkey`: overwrite the credential file. -/
def registerkey (_keyfile : Option String) (keystring : String) : Option String :=
  some keystring

/-- Embeds `listfields`. -/
def listfields : List String := _FIELDS

/-- The validation loop of `formatfields`: raise `FieldDoesNotExist` at the
first field not in the catalog (membership is tested before lower-casing). -/
def checkFieldsLoop : List String → Except GeoError Unit
  | [] => .ok ()
  | f :: fs => if f ∈ _FIELDS then checkFieldsLoop fs else .error (.fieldDoesNotExist f)

/-- Python `str.lower()` on the ASCII field names used here: lower-case every
character. -/
def pyLower (s : String) : String := ⟨s.data.map Char.toLower⟩

/-- Python `','.join(l)`. -/
def commaJoin : List String → String
  | [] => ""
  | [s] => s
  | s :: t => s ++ "," ++ commaJoin t

/-- Embeds `formatfields`: validate every field against the catalog, then lower-case
and join with commas, preserving order. -/
def formatfields (fields : List String) : Except GeoError String :=
  match checkFieldsLoop fields with
  | .error e => .error e
  | .ok _ => .ok (commaJoin (fields.map pyLower))

/-- The whitespace characters stripped by Python `int()` before parsing. -/
def pyWs (c : Char) : Bool :=
  c = ' ' || c = '\t' || c = '\n' || c = '\r' || c = '\x0b' || c = '\x0c'

/-- Strip leading and trailing Python whitespace. -/
def pyStrip (s : List Char) : List Char :=
  ((s.dropWhile pyWs).reverse.dropWhile pyWs).reverse

/-- Numeric value of a digit string. -/
def digitsVal (s : List Char) : Nat :=
  s.foldl (fun a c => 10 * a + (c.toNat - 48)) 0

/-- Python `int(s)` restricted to the shapes that reach it here: after
stripping surrounding whitespace the characters must form a non-empty digit
string, whose value is returned; anything else raises `ValueError`.
(Signs etc. never occur on the strings this program passes to `int`.) -/
def pyInt? (s : List Char) : Option Nat :=
  let t := pyStrip s
  if t ≠ [] ∧ t.all Char.isDigit then some (digitsVal t) else none

/-- Exact match of the regex piece `[0-2]?[0-9]{1,2}` against a whole chunk:
the chunk is one or two digits, or three digits whose first is 0, 1 or 2. -/
def segMatch (s : List Char) : Bool :=
  (s.length = 1 || s.length = 2 ||
    (s.length = 3 && (s.headD ' ' = '0' || s.headD ' ' = '1' || s.headD ' ' = '2'))) &&
  s.all Char.isDigit

/-- Python `re.compile('\.').split`: split on each dot, keeping empty chunks. -/
def splitDot : List Char → List (List Char)
  | [] => [[]]
  | c :: cs =>
    if c = '.' then [] :: splitDot cs
    else
      match splitDot cs with
      | [] => [[c]]
      | s :: ss => (c :: s) :: ss

/-- Anchored match of `^S\.S\.S\.S$` (with `S = [0-2]?[0-9]{1,2}`) against
exactly the given characters: since `S` matches no dot and the pattern holds
exactly three literal dots, the match succeeds iff splitting on dots yields
exactly four chunks, each matching `S`. -/
def ipv4CoreMatch (l : List Char) : Bool :=
  (splitDot l).length = 4 && (splitDot l).all segMatch

/-- The `re.match` of the anchored ipv4 pattern against a string.  Python `$`
(without `re.MULTILINE`) matches at the end of the string or just before a
newline that ends the string, so the pattern may consume either the whole
string or the whole string minus one final newline. -/
def pyRegexMatch (l : List Char) : Bool :=
  ipv4CoreMatch l || (l.getLast? = some '\n' && ipv4CoreMatch l.dropLast)

/-- Python `map(int, chunks)` forced to a list: `ValueError` propagates as `none`. -/
def mapIntList : List (List Char) → Option (List Nat)
  | [] => some []
  | c :: cs =>
    match pyInt? c, mapIntList cs with
    | some v, some vs => some (v :: vs)
    | _, _ => none

/-- Embeds `checkipformat` on the characters of the argument: if the regex matches,
split on dots, convert every chunk with `int`, keep the values below 256 and
succeed iff four values remain; otherwise raise `IncorrectIpFormat('ipv4')`. -/
def checkipformatCore (l : List Char) : Except GeoError Unit :=
  if pyRegexMatch l then
    match mapIntList (splitDot l) with
    | none => .error .valueError
    | some ints =>
      if (ints.filter (fun v => decide (v < 256))).length = 4 then .ok ()
      else .error (.incorrectIpFormat "ipv4")
  else .error (.incorrectIpFormat "ipv4")

/-- Embeds `checkipformat`. -/
def checkipformat (ip : String) : Except GeoError Unit :=
  checkipformatCore ip.data

/-- The acceptance condition as the spec words it: four dot-separated
segments, each 1–3 digits with any 3-digit segment beginning 0–2, and every
segment's numeric value below 256. -/
def specIpAccept (l : List Char) : Bool :=
  (splitDot l).length = 4 &&
    (splitDot l).all (fun c => segMatch c && decide (digitsVal c < 256))

/-- Remove one trailing newline when present. -/
def stripNl (l : List Char) : List Char :=
  if l.getLast? = some '\n' then l.dropLast else l

/-- Append a character to the last chunk of a chunk list: how a dot-split
decomposition changes when a non-dot character is appended to the string. -/
def addLast (c : Char) : List (List Char) → List (List Char)
  | [] => [[c]]
  | [s] => [s ++ [c]]
  | s :: ss => s :: addLast c ss

/-- Embeds `Response.cache`: read the `ip` attribute, open the store with flag
`'w'` (fails when the store file does not exist), store `self.__dict__`
under that ip. -/
def cache (store : Option CacheStore) (rec : Rec) :
    Except GeoError Unit × Option CacheStore × List Eff :=
  match dictGet rec "ip" with
  | none => (.error .attributeError, store, [])
  | some ip =>
    match store with
    | none => (.error .dbOpenError, none, [.cacheOpen 'w'])
    | some db => (.ok (), some (dictSet db ip rec), [.cacheOpen 'w', .cacheWrite ip])

/-- Embeds `Response.uncache`: read the `ip` attribute, open the store with flag
`'w'`, query the literal key `'ip'` (sic), and when that value is truthy
(a non-empty dict) execute `del db[ip]`, which raises `KeyError` when the
record's ip is not a key of the store. -/
def uncache (store : Option CacheStore) (rec : Rec) :
    Except GeoError Unit × Option CacheStore × List Eff :=
  match dictGet rec "ip" with
  | none => (.error .attributeError, store, [])
  | some ip =>
    match store with
    | none => (.error .dbOpenError, none, [.cacheOpen 'w'])
    | some db =>
      match dictGet db "ip" with
      | some v =>
        if v ≠ [] then
          match dictGet db ip with
          | some _ =>
            (.ok (), some (dictDel db ip), [.cacheOpen 'w', .cacheRead "ip", .cacheDel ip])
          | none => (.error .keyError, some db, [.cacheOpen 'w', .cacheRead "ip"])
        else (.ok (), some db, [.cacheOpen 'w', .cacheRead "ip"])
      | none => (.ok (), some db, [.cacheOpen 'w', .cacheRead "ip"])

/-- Embeds `Response.retreivefromcache` (source spelling): open the store with flag
`'c'` (creating it when absent), `db.get(ip)`; when the value is truthy
return `cls(ip)` — built from the ip *string* — else `None`. -/
def retreivefromcache (store : Option CacheStore) (ip : String) :
    Except GeoError (Option Rec) × Option CacheStore × List Eff :=
  let db := store.getD []
  match dictGet db ip with
  | some v =>
    if v ≠ [] then
      match responseInitStr ip with
      | .ok rec => (.ok (some rec), some db, [.cacheOpen 'c', .cacheRead ip])
      | .error e => (.error e, some db, [.cacheOpen 'c', .cacheRead ip])
    else (.ok none, some db, [.cacheOpen 'c', .cacheRead ip])
  | none => (.ok none, some db, [.cacheOpen 'c', .cacheRead ip])

/-- Fixed explanation for HTTP 401. -/
def text401 : String :=
  "It is returned for one of the following reasons:\n\t(1) If API key (as \"apiKey\" URL parameter) is missing from the request toIP Geolocation API.\n\t(2) If an invalid (a random value) API key is provided.\n\t(3) If the API request is made from an unverified ipgeolocation.io account.\n\t(4) If your account has been disabled or locked to use by the admin due to abuse or illegal activity.\n\t(5) When the request to IP Geolocation API ismade using API key for a database subscription.\n\t(6) When the request to IP Geolocation API is made on the \"paused\" subscription.\n\t(7) If you’re making API requests after your subscription trial has been expired.\n\t(8) If your active until date has passed and you need to upgrade your account.\n\t(9) If bulk IP to geolocation look-ups endpoint is called using free subscription API key.\n\t(10) If user-agent lookup using custom string or bulk user-agent look-ups endpoints are called using free subscription API key.\n\t(11) When the wrong input is provided in the request to any endpoint of IP Geolocation API."

/-- Fixed explanation for HTTP 403. -/
def text403 : String :=
  "It is returned for one of the following reasons:\n\t(1) If IP to geolocation look-up for a domain name is done using a free subscription API key."

/-- Fixed explanation for HTTP 404. -/
def text404 : String :=
  "It is returned for one of the following reasons:\n\t(1) If the queried IP address or domain name is not found in our database."

/-- Fixed explanation for HTTP 423. -/
def text423 : String :=
  "If the queried IP address is a [bogon]() (bogus IP address from the bogon space) IP address."

/-- Fixed explanation for HTTP 429. -/
def text429 : String :=
  "It is returned for one of the following reasons:\n\t(1) If the API usage limit has reached for the free subscriptions, or paid subscriptions with the status \"past due\", \"deleted\" or \"trial expired\".\n\t(2) If the surcharge API usage limit has reached against the subscribed plan."

/-- The status-code dispatch at the end of `get`: 200 builds a `Response`
from the JSON body; the five known error codes raise `RequestError` with
their fixed texts; anything else raises `RequestError('Unknown', 'Unknown')`. -/
def httpDispatch (status : Nat) (body : List (String × String)) : Except GeoError Rec :=
  if status = 200 then .ok (responseInitDict body)
  else if status = 401 then .error (.requestError (.num status) text401)
  else if status = 403 then .error (.requestError (.num status) text403)
  else if status = 404 then .error (.requestError (.num status) text404)
  else if status = 423 then .error (.requestError (.num status) text423)
  else if status = 429 then .error (.requestError (.num status) text429)
  else .error (.requestError (.str "Unknown") "Unknown")

/-- The external world as `get` sees it: the credential file contents (or
`none`), the cache store file (or `none`), and the status and JSON body of
the HTTP response the provider would send to the request. -/
structure Env where
  keyfile : Option String
  store : Option CacheStore
  httpStatus : Nat
  httpBody : List (String × String)

/-- What a call to `get` produces: its result, the cache store afterwards,
and the trace of external effects in order. -/
structure GetOut where
  res : Except GeoError Rec
  store : Option CacheStore
  trace : List Eff
deriving DecidableEq

/-- Steps 3–5 of `get`: validate the ip (when truthy) and append it, then
format and append the include and exclude field lists (when truthy). -/
def buildQuery (q0 : String) (ip? : Option String) (f? x? : Option (List String)) :
    Except GeoError String :=
  (match ip? with
   | some ip =>
     if ip ≠ "" then
       match checkipformat ip with
       | .ok _ => .ok (q0 ++ "&ip=" ++ ip)
       | .error e => .error e
     else .ok q0
   | none => .ok q0) >>= fun q1 =>
  (match f? with
   | some fs =>
     if fs ≠ [] then
       match formatfields fs with
       | .ok inc => .ok (q1 ++ "&fields=" ++ inc)
       | .error e => .error e
     else .ok q1
   | none => .ok q1) >>= fun q2 =>
  (match x? with
   | some xs =>
     if xs ≠ [] then
       match formatfields xs with
       | .ok exc => .ok (q2 ++ "&excludes=" ++ exc)
       | .error e => .error e
     else .ok q2
   | none => .ok q2)

/-- The tail of `get` after the cache probe: build the query (propagating
validation errors, which leave the store untouched), issue the HTTP GET and
dispatch on the status. -/
def getRest (st : Option CacheStore) (tr : List Eff) (q0 : String)
    (ip? : Option String) (f? x? : Option (List String)) (env : Env) : GetOut :=
  match buildQuery q0 ip? f? x? with
  | .error e => ⟨.error e, st, tr⟩
  | .ok q => ⟨httpDispatch env.httpStatus env.httpBody, st, tr ++ [.httpGet (__URL ++ q)]⟩

/-- Embeds `get`: fetch the key (raising `KeyNotFound` before anything else), probe
the cache when `cache_search` holds and the ip is truthy (returning the
reconstructed instance on a hit), then build the query and perform the
HTTP request. -/
def get (env : Env) (ip? : Option String) (fields? excluded? : Option (List String))
    (cache_search : Bool) : GetOut :=
  match getkey env.keyfile with
  | .error e => ⟨.error e, env.store, [.keyAccess]⟩
  | .ok key =>
    let q0 := __API_PARAM ++ "=" ++ key
    match ip? with
    | some ip =>
      if cache_search ∧ ip ≠ "" then
        match retreivefromcache env.store ip with
        | (.ok (some rec), st, tr) => ⟨.ok rec, st, .keyAccess :: tr⟩
        | (.error e, st, tr) => ⟨.error e, st, .keyAccess :: tr⟩
        | (.ok none, st, tr) => getRest st (.keyAccess :: tr) q0 ip? fields? excluded? env
      else getRest env.store [.keyAccess] q0 ip? fields? excluded? env
    | none => getRest env.store [.keyAccess] q0 ip? fields? excluded? env

/-- The entries of the cache store, a missing store file having none. -/
def entries (st : Option CacheStore) (k : String) : Option Rec :=
  dictGet (st.getD []) k

/-! ### Helper lemmas -/

lemma dictGet_map_mem {β : Type} (g : String → β) (rest : List (String × β)) :
    ∀ (L : List String) (f : String), f ∈ L →
      dictGet (L.map (fun x => (x, g x)) ++ rest) f = some (g f) := by
  intro L
  induction L with
  | nil => intro f hf; cases hf
  | cons x t ih =>
    intro f hf
    simp only [List.map_cons, List.cons_append, dictGet]
    by_cases hx : x = f
    · subst hx; simp
    · rw [if_neg hx]
      rcases List.mem_cons.mp hf with hfe | hmem
      · exact absurd hfe.symm hx
      · exact ih f hmem

/-- Every catalog field is an attribute of a dict-built record, holding the
payload value when present and the empty string otherwise. -/
lemma dictGet_catalog (attrs : List (String × String)) (f : String) (hf : f ∈ _FIELDS) :
    dictGet (responseInitDict attrs) f = some ((dictGet attrs f).getD "") :=
  dictGet_map_mem (fun x => (dictGet attrs x).getD "") _ _FIELDS f hf

lemma getRest_store (st : Option CacheStore) (tr : List Eff) (q0 : String)
    (ip? : Option String) (f? x? : Option (List String)) (env : Env) :
    (getRest st tr q0 ip? f? x? env).store = st := by
  unfold getRest
  split <;> rfl

lemma retreivefromcache_store (st : Option CacheStore) (ip : String) :
    (retreivefromcache st ip).2.1 = some (st.getD []) := by
  rcases hd : dictGet (st.getD []) ip with _ | v
  · simp [retreivefromcache, hd]
  · by_cases hv : v ≠ []
    · rcases hr : responseInitStr ip with e | r <;> simp [retreivefromcache, hd, hv, hr]
    · simp [retreivefromcache, hd, hv]

/-! ### Claim theorems -/

/-- C1 (code bug): caching a Record for ip "1.2.3.4" and then calling `get`
for "1.2.3.4" with `cache_search = true` does hit the cache and issues no
HTTP request (the trace is exactly key access, cache open, cache read), but
the Record it returns is `cls(ip)` built from the ip *string*, so its `ip`
attribute is `""` — not `"1.2.3.4"` — and every other catalog field is `""`
rather than the cached value.  The claim states the evident intent; the code
contradicts it. -/
theorem c1_cache_roundtrip_defect :
    (get ⟨some "KEY",
        (cache (some []) (responseInitDict [("ip", "1.2.3.4"), ("city", "Paris")])).2.1,
        200, []⟩ (some "1.2.3.4") none none true).res
      = .ok ((_FIELDS.map (fun f => (f, ""))) ++ [("currentfolder", currentfolderPath)])
    ∧ dictGet ((_FIELDS.map (fun f => (f, ""))) ++ [("currentfolder", currentfolderPath)]) "ip"
      = some ""
    ∧ dictGet ((_FIELDS.map (fun f => (f, ""))) ++ [("currentfolder", currentfolderPath)]) "city"
      = some ""
    ∧ (get ⟨some "KEY",
        (cache (some []) (responseInitDict [("ip", "1.2.3.4"), ("city", "Paris")])).2.1,
        200, []⟩ (some "1.2.3.4") none none true).trace
      = [.keyAccess, .cacheOpen 'c', .cacheRead "1.2.3.4"] := by
  refine ⟨by decide, by decide, by decide, by decide⟩

/-- C5 (amended): `get`'s status dispatch maps 200 to a Record built from
the JSON body, each of 401/403/404/423/429 to `RequestError` with its fixed
text, and any other status to `RequestError('Unknown', 'Unknown')` — with a
capital U, not the lower-case "unknown" of the claim. -/
theorem c5_status_dispatch (status : Nat) (body : List (String × String)) :
    (status = 200 → httpDispatch status body = .ok (responseInitDict body))
    ∧ (status = 401 → httpDispatch status body = .error (.requestError (.num 401) text401))
    ∧ (status = 403 → httpDispatch status body = .error (.requestError (.num 403) text403))
    ∧ (status = 404 → httpDispatch status body = .error (.requestError (.num 404) text404))
    ∧ (status = 423 → httpDispatch status body = .error (.requestError (.num 423) text423))
    ∧ (status = 429 → httpDispatch status body = .error (.requestError (.num 429) text429))
    ∧ (status ∉ ([200, 401, 403, 404, 423, 429] : List Nat) →
        httpDispatch status body = .error (.requestError (.str "Unknown") "Unknown")) := by
  refine ⟨?_, ?_, ?_, ?_, ?_, ?_, ?_⟩ <;> intro h
  · subst h; rfl
  · subst h; rfl
  · subst h; rfl
  · subst h; rfl
  · subst h; rfl
  · subst h; rfl
  · have h1 : status ≠ 200 := fun e => h (by rw [e]; decide)
    have h2 : status ≠ 401 := fun e => h (by rw [e]; decide)
    have h3 : status ≠ 403 := fun e => h (by rw [e]; decide)
    have h4 : status ≠ 404 := fun e => h (by rw [e]; decide)
    have h5 : status ≠ 423 := fun e => h (by rw [e]; decide)
    have h6 : status ≠ 429 := fun e => h (by rw [e]; decide)
    simp [httpDispatch, h1, h2, h3, h4, h5, h6]

/-- C5 witness: the dispatch evaluated at status 429 and at the unmapped
status 500. -/
theorem c5_status_dispatch_witness :
    httpDispatch 429 [] = .error (.requestError (.num 429) text429)
    ∧ httpDispatch 500 [] = .error (.requestError (.str "Unknown") "Unknown") :=
  ⟨(c5_status_dispatch 429 []).2.2.2.2.2.1 rfl,
   (c5_status_dispatch 500 []).2.2.2.2.2.2 (by decide)⟩

/-- C5 counterexample: at an unmapped status the code raises
`RequestError('Unknown', 'Unknown')`, not the `("unknown", "unknown")` the
claim states. -/
theorem c5_unknown_case_counterexample :
    httpDispatch 500 [] = .error (.requestError (.str "Unknown") "Unknown")
    ∧ httpDispatch 500 [] ≠ .error (.requestError (.str "unknown") "unknown") := by
  exact ⟨rfl, by decide⟩

/-- C6: with no credential file, `get` fails with `KeyNotFound`, the store
is untouched, and the effect trace holds only the credential-file access —
no cache open/read and no HTTP request. -/
theorem c6_missing_credential (env : Env) (ip? : Option String)
    (f? x? : Option (List String)) (cs : Bool) (h : env.keyfile = none) :
    (get env ip? f? x? cs).res = .error .keyNotFound
    ∧ (get env ip? f? x? cs).store = env.store
    ∧ (get env ip? f? x? cs).trace = [.keyAccess] := by
  simp [get, getkey, h]

/-- C6 witness: a concrete environment with no credential file. -/
theorem c6_missing_credential_witness :
    (get ⟨none, some [], 200, []⟩ (some "1.2.3.4") none none true).res = .error .keyNotFound
    ∧ (get ⟨none, some [], 200, []⟩ (some "1.2.3.4") none none true).store = some []
    ∧ (get ⟨none, some [], 200, []⟩ (some "1.2.3.4") none none true).trace = [.keyAccess] :=
  c6_missing_credential ⟨none, some [], 200, []⟩ (some "1.2.3.4") none none true rfl

/-- C7 (code bug): with a store holding exactly the entry for the record's
ip "1.2.3.4" (and no entry under the literal key "ip"), `uncache` returns
normally without deleting anything — the guard queries the literal key
`'ip'` instead of the record's ip — so afterwards the store still holds the
entry under "1.2.3.4", contradicting the claimed postcondition. -/
theorem c7_uncache_literal_key_defect :
    (uncache (some [("1.2.3.4", responseInitDict [("ip", "1.2.3.4")])])
        (responseInitDict [("ip", "1.2.3.4")])).1 = .ok ()
    ∧ (uncache (some [("1.2.3.4", responseInitDict [("ip", "1.2.3.4")])])
        (responseInitDict [("ip", "1.2.3.4")])).2.1
      = some [("1.2.3.4", responseInitDict [("ip", "1.2.3.4")])]
    ∧ dictGet ((uncache (some [("1.2.3.4", responseInitDict [("ip", "1.2.3.4")])])
        (responseInitDict [("ip", "1.2.3.4")])).2.1.getD []) "1.2.3.4"
      = some (responseInitDict [("ip", "1.2.3.4")]) := by
  refine ⟨by decide, by decide, by decide⟩

/-- C9: `cache` and `uncache` open the store with the write flag `'w'`,
which fails when the store file does not exist (the store stays absent),
while `retreivefromcache` opens with `'c'` and creates an empty store. -/
theorem c9_write_flag_requires_store (attrs : List (String × String)) (ip : String) :
    (cache none (responseInitDict attrs)).1 = .error .dbOpenError
    ∧ (cache none (responseInitDict attrs)).2.1 = none
    ∧ (uncache none (responseInitDict attrs)).1 = .error .dbOpenError
    ∧ (uncache none (responseInitDict attrs)).2.1 = none
    ∧ (retreivefromcache none ip).2.1 = some [] := by
  have hip := dictGet_catalog attrs "ip" (by decide)
  refine ⟨?_, ?_, ?_, ?_, rfl⟩ <;> simp [cache, uncache, hip]

/-- C10: when the store has a (non-empty, as every stored record dict is)
entry under the literal key "ip" but no entry under the record's actual ip,
`uncache` reaches `del db[ip]` and raises `KeyError`; the guard does not
establish that the deleted key is present. -/
theorem c10_uncache_keyerror (db : CacheStore) (attrs : List (String × String)) (w : Rec)
    (h1 : dictGet db "ip" = some w) (h2 : w ≠ [])
    (h3 : dictGet db ((dictGet attrs "ip").getD "") = none) :
    (uncache (some db) (responseInitDict attrs)).1 = .error .keyError
    ∧ (uncache (some db) (responseInitDict attrs)).2.1 = some db := by
  have hip := dictGet_catalog attrs "ip" (by decide)
  constructor <;> simp [uncache, hip, h1, h2, h3]

/-- C10 witness: a store whose only key is the literal "ip", and a record
whose ip is "1.2.3.4". -/
theorem c10_uncache_keyerror_witness :
    (uncache (some [("ip", responseInitDict [])])
        (responseInitDict [("ip", "1.2.3.4")])).1 = .error .keyError
    ∧ (uncache (some [("ip", responseInitDict [])])
        (responseInitDict [("ip", "1.2.3.4")])).2.1 = some [("ip", responseInitDict [])] :=
  c10_uncache_keyerror [("ip", responseInitDict [])] [("ip", "1.2.3.4")]
    (responseInitDict []) (by decide) (by decide) (by decide)

/-- C2 counterexample: `Response.__init__` also materializes the
`currentfolder` attribute, which is not a Field Catalog name, so the record
built from the empty payload has an attribute outside the catalog. -/
theorem c2_currentfolder_counterexample :
    ("currentfolder", currentfolderPath) ∈ responseInitDict []
    ∧ "currentfolder" ∉ _FIELDS := by
  decide

/-- C2 (amended): every Field Catalog name is an attribute of a record built
from any payload, holding the payload value when the name is a payload key
and the empty string otherwise; and the only attribute outside the catalog
is the internal `currentfolder` path. -/
theorem c2_fields_present_amended (attrs : List (String × String)) :
    (∀ f, f ∈ _FIELDS → dictGet (responseInitDict attrs) f = some ((dictGet attrs f).getD ""))
    ∧ ∀ k v, (k, v) ∈ responseInitDict attrs → k ∈ _FIELDS ∨ k = "currentfolder" := by
  constructor
  · intro f hf
    exact dictGet_catalog attrs f hf
  · intro k v hkv
    simp only [responseInitDict, List.mem_append, List.mem_map, List.mem_singleton] at hkv
    rcases hkv with ⟨f, hf, hEq⟩ | h
    · left
      cases hEq
      exact hf
    · right
      cases h
      rfl

/-- C2 witness: a present payload key keeps its value. -/
theorem c2_fields_present_amended_witness :
    dictGet (responseInitDict [("city", "X")]) "city" = some "X" :=
  ((c2_fields_present_amended [("city", "X")]).1 "city" (by decide)).trans (by decide)

lemma checkFieldsLoop_ok : ∀ (fields : List String), (∀ f ∈ fields, f ∈ _FIELDS) →
    checkFieldsLoop fields = .ok ()
  | [], _ => rfl
  | a :: t, h => by
    simp only [checkFieldsLoop]
    rw [if_pos (h a (List.mem_cons_self a t))]
    exact checkFieldsLoop_ok t (fun g hg => h g (List.mem_cons_of_mem a hg))

lemma checkFieldsLoop_err : ∀ (pre : List String) (f : String) (post : List String),
    (∀ g ∈ pre, g ∈ _FIELDS) → f ∉ _FIELDS →
    checkFieldsLoop (pre ++ f :: post) = .error (.fieldDoesNotExist f)
  | [], f, post, _, hf => by
    simp only [List.nil_append, checkFieldsLoop]
    rw [if_neg hf]
  | a :: t, f, post, hpre, hf => by
    simp only [List.cons_append, checkFieldsLoop]
    rw [if_pos (hpre a (List.mem_cons_self a t))]
    exact checkFieldsLoop_err t f post (fun g hg => hpre g (List.mem_cons_of_mem a hg)) hf

/-- C3 counterexample: membership in the catalog is tested before
lower-casing, so `formatfields ["City", "ASN"]` raises
`FieldDoesNotExist("City")` instead of returning `"city,asn"`. -/
theorem c3_mixed_case_counterexample :
    formatfields ["City", "ASN"] = .error (.fieldDoesNotExist "City")
    ∧ formatfields ["City", "ASN"] ≠ .ok "city,asn" := by
  exact ⟨rfl, by decide⟩

/-- C3 (amended): `formatfields` fails with `FieldDoesNotExist(f)` at the
first element `f` not in the catalog (tested before lower-casing, so the
mixed-case `"City"` is rejected), and otherwise lower-cases the elements and
joins them with commas in input order; `formatfields ["city", "asn"]`
returns `"city,asn"`, and `formatfields ["bogus"]` fails with
`FieldDoesNotExist("bogus")`. -/
theorem c3_formatfields_amended :
    (∀ fields, (∀ f ∈ fields, f ∈ _FIELDS) →
        formatfields fields = .ok (commaJoin (fields.map pyLower)))
    ∧ (∀ pre f post, (∀ g ∈ pre, g ∈ _FIELDS) → f ∉ _FIELDS →
        formatfields (pre ++ f :: post) = .error (.fieldDoesNotExist f))
    ∧ formatfields ["City", "ASN"] = .error (.fieldDoesNotExist "City")
    ∧ formatfields ["city", "asn"] = .ok "city,asn"
    ∧ formatfields ["bogus"] = .error (.fieldDoesNotExist "bogus") := by
  refine ⟨?_, ?_, rfl, rfl, rfl⟩
  · intro fields h
    simp [formatfields, checkFieldsLoop_ok fields h]
  · intro pre f post hpre hf
    simp [formatfields, checkFieldsLoop_err pre f post hpre hf]

/-- C3 witness: a valid catalog field list. -/
theorem c3_formatfields_amended_witness :
    formatfields ["city"] = .ok "city" :=
  ((c3_formatfields_amended).1 ["city"] (by decide)).trans (by decide)

/-- C8: whatever the environment and the arguments, a call to `get` leaves
every cache entry as it was: the only store change it can make is the
creation of an empty store file by the `'c'`-flag open of the cache probe,
which adds no entry.  Writes happen only through the caller-initiated
`cache`/`uncache`. -/
theorem c8_get_never_writes_cache (env : Env) (ip? : Option String)
    (f? x? : Option (List String)) (cs : Bool) (k : String) :
    entries (get env ip? f? x? cs).store k = entries env.store k := by
  have hgen : ∀ st : Option CacheStore, entries (some (st.getD [])) k = entries st k := by
    intro st; cases st <;> rfl
  cases hk : env.keyfile with
  | none => simp [get, getkey, hk]
  | some key =>
    cases ip? with
    | none => simp [get, getkey, hk, getRest_store]
    | some ip =>
      by_cases hc : (cs = true ∧ ¬ ip = "")
      · have hst : (retreivefromcache env.store ip).2.1 = some (env.store.getD []) :=
          retreivefromcache_store env.store ip
        rcases hr : retreivefromcache env.store ip with ⟨r, st2, tr2⟩
        have hst2 : st2 = some (env.store.getD []) := by
          rw [hr] at hst; exact hst
        rcases r with e | o
        · simp only [get, getkey, hk, if_pos hc, hr]
          rw [hst2]
          exact hgen env.store
        · rcases o with _ | rec
          · simp only [get, getkey, hk, if_pos hc, hr, getRest_store]
            rw [hst2]
            exact hgen env.store
          · simp only [get, getkey, hk, if_pos hc, hr]
            rw [hst2]
            exact hgen env.store
      · simp [get, getkey, hk, if_neg hc, getRest_store]

/-! ### The ip-format check -/

lemma splitDot_ne_nil : ∀ l : List Char, splitDot l ≠ []
  | [] => by simp [splitDot]
  | c :: cs => by
    simp only [splitDot]
    split
    · simp
    · split
      · simp
      · simp

lemma splitDot_cons (c : Char) (cs : List Char) :
    splitDot (c :: cs) = if c = '.' then [] :: splitDot cs
      else match splitDot cs with
        | [] => [[c]]
        | s :: ss => (c :: s) :: ss := rfl

lemma splitDot_concat : ∀ (xs : List Char) (c : Char), c ≠ '.' →
    splitDot (xs ++ [c]) = addLast c (splitDot xs)
  | [], c, hc => by
    rw [List.nil_append, splitDot_cons, if_neg hc]
    rfl
  | x :: rest, c, hc => by
    rw [List.cons_append, splitDot_cons, splitDot_cons]
    by_cases hx : x = '.'
    · rw [if_pos hx, if_pos hx, splitDot_concat rest c hc]
      rcases hs : splitDot rest with _ | ⟨s, ss⟩
      · exact absurd hs (splitDot_ne_nil rest)
      · rfl
    · rw [if_neg hx, if_neg hx, splitDot_concat rest c hc]
      rcases hs : splitDot rest with _ | ⟨s, ss⟩
      · exact absurd hs (splitDot_ne_nil rest)
      · rcases ss with _ | ⟨t, ts⟩
        · simp [addLast]
        · rfl

lemma segMatch_concat_nl (y : List Char) : segMatch (y ++ ['\n']) = false := by
  have hnd : Char.isDigit '\n' = false := by decide
  simp [segMatch, List.all_append, hnd]

lemma addLast_all_segMatch : ∀ S : List (List Char), (addLast '\n' S).all segMatch = false
  | [] => by decide
  | [s] => by
    simp [addLast, segMatch_concat_nl s]
  | s :: t :: ts => by
    simp only [addLast, List.all_cons]
    rw [addLast_all_segMatch (t :: ts)]
    simp

lemma pyWs_eq_false_of_isDigit (c : Char) (h : Char.isDigit c = true) : pyWs c = false := by
  cases hw : pyWs c
  · rfl
  · exfalso
    simp only [pyWs, Bool.or_eq_true, decide_eq_true_eq] at hw
    rcases hw with ((((h1 | h1) | h1) | h1) | h1) | h1 <;> (subst h1; exact absurd h (by decide))

lemma dropWhile_pyWs_of_digits : ∀ (s : List Char), s.all Char.isDigit = true →
    s.dropWhile pyWs = s
  | [], _ => rfl
  | a :: t, h => by
    have ha : Char.isDigit a = true := by
      rw [List.all_cons, Bool.and_eq_true] at h
      exact h.1
    rw [List.dropWhile_cons, pyWs_eq_false_of_isDigit a ha]
    simp

lemma pyStrip_of_digits (s : List Char) (h : s.all Char.isDigit = true) : pyStrip s = s := by
  unfold pyStrip
  rw [dropWhile_pyWs_of_digits s h, dropWhile_pyWs_of_digits s.reverse (by rwa [List.all_reverse]),
    List.reverse_reverse]

lemma pyInt?_of_seg (s : List Char) (h : segMatch s = true) : pyInt? s = some (digitsVal s) := by
  have h' := h
  simp only [segMatch] at h'
  rw [Bool.and_eq_true] at h'
  obtain ⟨hlen, hall⟩ := h'
  have hne : s ≠ [] := by
    intro e
    subst e
    exact absurd h (by decide)
  simp only [pyInt?]
  rw [pyStrip_of_digits s hall, if_pos ⟨hne, hall⟩]

lemma pyStrip_concat_nl (s : List Char) : pyStrip (s ++ ['\n']) = pyStrip s := by
  unfold pyStrip
  rw [List.dropWhile_append]
  by_cases he : (s.dropWhile pyWs).isEmpty = true
  · rw [if_pos he]
    rw [List.isEmpty_iff] at he
    rw [he]
    decide
  · rw [if_neg he]
    rw [List.reverse_append]
    simp only [List.reverse_cons, List.reverse_nil, List.nil_append, List.singleton_append]
    rw [List.dropWhile_cons]
    have hws : pyWs '\n' = true := by decide
    rw [hws]
    simp

lemma pyInt?_concat_nl (s : List Char) : pyInt? (s ++ ['\n']) = pyInt? s := by
  simp only [pyInt?, pyStrip_concat_nl]

lemma mapIntList_cons (c : List Char) (cs : List (List Char)) :
    mapIntList (c :: cs)
      = match pyInt? c, mapIntList cs with
        | some v, some vs => some (v :: vs)
        | _, _ => none := rfl

lemma mapIntList_addLast : ∀ S : List (List Char), S ≠ [] →
    mapIntList (addLast '\n' S) = mapIntList S
  | [], h => absurd rfl h
  | [s], _ => by
    show mapIntList [s ++ ['\n']] = mapIntList [s]
    rw [mapIntList_cons, mapIntList_cons, pyInt?_concat_nl]
  | s :: t :: ts, _ => by
    show mapIntList (s :: addLast '\n' (t :: ts)) = mapIntList (s :: t :: ts)
    rw [mapIntList_cons, mapIntList_cons, mapIntList_addLast (t :: ts) (by simp)]

lemma mapIntList_of_seg : ∀ S : List (List Char), S.all segMatch = true →
    mapIntList S = some (S.map digitsVal)
  | [], _ => rfl
  | c :: cs, h => by
    rw [List.all_cons, Bool.and_eq_true] at h
    simp only [mapIntList, List.map_cons]
    rw [pyInt?_of_seg c h.1, mapIntList_of_seg cs h.2]

lemma filter_length_eq_iff {p : Nat → Bool} (xs : List Nat) :
    ((xs.filter p).length = xs.length) ↔ ∀ v ∈ xs, p v = true := by
  constructor
  · intro hl
    rw [← List.filter_eq_self]
    exact (List.filter_sublist xs).eq_of_length hl
  · intro hp
    rw [List.filter_eq_self.mpr hp]

lemma core_of_spec (l : List Char) (h : specIpAccept l = true) : ipv4CoreMatch l = true := by
  simp only [specIpAccept, Bool.and_eq_true, List.all_eq_true, decide_eq_true_eq] at h
  simp only [ipv4CoreMatch, Bool.and_eq_true, List.all_eq_true, decide_eq_true_eq]
  exact ⟨h.1, fun c hc => (h.2 c hc).1⟩

lemma checkCore_iff (l l0 : List Char)
    (hreg : pyRegexMatch l = ipv4CoreMatch l0)
    (hints : mapIntList (splitDot l) = mapIntList (splitDot l0)) :
    (checkipformatCore l = .ok ()) ↔ specIpAccept l0 = true := by
  cases hm : ipv4CoreMatch l0 with
  | false =>
    have hpr : pyRegexMatch l = false := hreg.trans hm
    constructor
    · intro h
      exfalso
      simp [checkipformatCore, hpr] at h
    · intro h
      rw [core_of_spec l0 h] at hm
      exact absurd hm (by decide)
  | true =>
    have hm' := hm
    simp only [ipv4CoreMatch] at hm'
    rw [Bool.and_eq_true] at hm'
    obtain ⟨hlen, hall⟩ := hm'
    have hlen' : (splitDot l0).length = 4 := of_decide_eq_true hlen
    have hpr : pyRegexMatch l = true := hreg.trans hm
    have hmap : mapIntList (splitDot l) = some ((splitDot l0).map digitsVal) :=
      hints.trans (mapIntList_of_seg _ hall)
    have hmaplen : ((splitDot l0).map digitsVal).length = 4 := by
      rw [List.length_map]
      exact hlen'
    simp only [checkipformatCore, hpr, if_true, hmap]
    by_cases hc : ((((splitDot l0).map digitsVal).filter (fun v => decide (v < 256))).length = 4)
    · rw [if_pos hc]
      simp only [eq_self_iff_true, true_iff]
      rw [← hmaplen] at hc
      have hv := (filter_length_eq_iff _).mp hc
      simp only [specIpAccept, Bool.and_eq_true, List.all_eq_true, decide_eq_true_eq]
      refine ⟨hlen', fun c hcm => ?_⟩
      have h1 : segMatch c = true := List.all_eq_true.mp hall c hcm
      have h2 : decide (digitsVal c < 256) = true :=
        hv (digitsVal c) (List.mem_map_of_mem digitsVal hcm)
      exact ⟨h1, of_decide_eq_true h2⟩
    · rw [if_neg hc]
      constructor
      · intro h
        exact absurd h (by simp)
      · intro h
        exfalso
        apply hc
        simp only [specIpAccept, Bool.and_eq_true, List.all_eq_true, decide_eq_true_eq] at h
        have hp : ∀ v ∈ (splitDot l0).map digitsVal, (fun v => decide (v < 256)) v = true := by
          intro v hvm
          rcases List.mem_map.mp hvm with ⟨c, hcm, rfl⟩
          exact decide_eq_true (h.2 c hcm).2
        exact ((filter_length_eq_iff _).mpr hp).trans hmaplen

lemma dropLast_concat_getLast? : ∀ (l : List Char) (c : Char), l.getLast? = some c →
    l.dropLast ++ [c] = l
  | [], _, h => by simp at h
  | [a], c, h => by
    simp only [List.getLast?_singleton, Option.some.injEq] at h
    subst h
    rfl
  | a :: b :: t, c, h => by
    have h' : (b :: t).getLast? = some c := by
      rwa [List.getLast?_cons_cons] at h
    have ih := dropLast_concat_getLast? (b :: t) c h'
    show (a :: (b :: t).dropLast) ++ [c] = a :: b :: t
    rw [List.cons_append, ih]

/-- C4 counterexample: Python `$` (without `re.MULTILINE`) also matches just
before a newline ending the string, so `checkipformat "1.2.3.4\n"` returns
normally although that string is not four dot-separated digit segments (its
last dot-separated segment holds a newline), refuting the claimed
"exactly when". -/
theorem c4_trailing_newline_counterexample :
    checkipformat "1.2.3.4\n" = .ok ()
    ∧ specIpAccept ("1.2.3.4\n".data) = false := by
  exact ⟨by decide, by decide⟩

/-- C4 (amended): `checkipformat ip` returns normally exactly when `ip`,
after removing at most one trailing newline, is four dot-separated segments,
each 1–3 digits with any 3-digit segment beginning 0–2, and every segment's
numeric value is below 256; in particular "192.168.1.1" is accepted while
"999.1.1.1" and "1.2.3" are rejected. -/
theorem c4_checkipformat_amended :
    (∀ ip : String, checkipformat ip = .ok () ↔ specIpAccept (stripNl ip.data) = true)
    ∧ checkipformat "192.168.1.1" = .ok ()
    ∧ checkipformat "999.1.1.1" = .error (.incorrectIpFormat "ipv4")
    ∧ checkipformat "1.2.3" = .error (.incorrectIpFormat "ipv4") := by
  refine ⟨?_, by decide, by decide, by decide⟩
  intro ip
  unfold checkipformat
  by_cases hnl : ip.data.getLast? = some '\n'
  · obtain ⟨l', hl⟩ : ∃ l', ip.data = l' ++ ['\n'] :=
      ⟨ip.data.dropLast, (dropLast_concat_getLast? ip.data '\n' hnl).symm⟩
    rw [hl]
    have hstrip : stripNl (l' ++ ['\n']) = l' := by
      unfold stripNl
      rw [if_pos (List.getLast?_concat l'), List.dropLast_concat]
    rw [hstrip]
    have hdot : ('\n' : Char) ≠ '.' := by decide
    apply checkCore_iff
    · have hcm : ipv4CoreMatch (l' ++ ['\n']) = false := by
        simp only [ipv4CoreMatch, splitDot_concat l' '\n' hdot, addLast_all_segMatch]
        simp
      simp only [pyRegexMatch, hcm, List.getLast?_concat, List.dropLast_concat]
      simp
    · rw [splitDot_concat l' '\n' hdot, mapIntList_addLast _ (splitDot_ne_nil l')]
  · have hreg : pyRegexMatch ip.data = ipv4CoreMatch ip.data := by
      simp only [pyRegexMatch]
      rw [decide_eq_false hnl]
      simp
    have hstrip : stripNl ip.data = ip.data := by
      unfold stripNl
      rw [if_neg hnl]
    rw [hstrip]
    exact checkCore_iff _ _ hreg rfl

end Geoapy
